import Mathlib

/-!
Shallow embedding of the scheduled-posts core of the `linkedin-mcp` repository:
`src/linkedin_mcp/scheduler_db.py` (class `ScheduledPostsDB` and `run_scheduler`)
and `src/linkedin_mcp/tools/scheduler.py` (`schedule_post`).

Modelling conventions:
* A SQLite row of the `scheduled_posts` table is a `Row`; the table is a `Store`
  (a list of rows in insertion order).
* SQLite compares the TEXT column `scheduled_time` with the BINARY collation
  (bytewise); `textLe` is that comparison on the character data.
* `ORDER BY scheduled_time ASC` is modelled by `List.insertionSort`.
* `LIMIT ?` follows SQLite semantics: a negative limit means "no limit".
* The clocks sampled by `datetime.now` inside the Python methods are passed in
  as explicit arguments, and the `uuid.uuid4()` fresh id is an explicit argument.
* The external publishing client (`client.create_post`) is an oracle function
  `publish : PublishCall → Except String String` returning a post URN or the
  string representation of the raised exception.
-/

namespace LinkedinMcp

/-- Bytewise lexicographic comparison of two character lists, the order SQLite
uses for TEXT values under the default BINARY collation. -/
def textLe : List Char → List Char → Bool
  | [], _ => true
  | _ :: _, [] => false
  | c :: cs, d :: ds => if c < d then true else if d < c then false else textLe cs ds

/-- SQLite `<=` on two TEXT values. -/
def strLe (a b : String) : Bool := textLe a.data b.data

/-- The `status` column: one of `pending`, `published`, `failed`, `cancelled`. -/
inductive Status
  | pending
  | published
  | failed
  | cancelled
deriving DecidableEq, Repr

/-- One row of the `scheduled_posts` table (schema `_SCHEMA` in `scheduler_db.py`). -/
structure Row where
  id : Nat
  commentary : String
  url : Option String
  visibility : String
  scheduled_time : String
  status : Status
  created_at : String
  published_at : Option String
  post_urn : Option String
  error_message : Option String
  retry_count : Nat
deriving DecidableEq, Repr

/-- The table contents, in insertion order. -/
abbrev Store := List Row

/-- Ordering of rows by their `scheduled_time` TEXT value (`ORDER BY scheduled_time ASC`). -/
def timeLe (a b : Row) : Prop := strLe a.scheduled_time b.scheduled_time = true

instance timeLeDec : DecidableRel timeLe := fun a b =>
  instDecidableEqBool (strLe a.scheduled_time b.scheduled_time) true

/-- Sorting step `ORDER BY scheduled_time ASC` over a list of rows. -/
def sortByTime (l : List Row) : List Row := List.insertionSort timeLe l

/-- Method `ScheduledPostsDB.get`: `SELECT * FROM scheduled_posts WHERE id = ?` (first match). -/
def get (s : Store) (post_id : Nat) : Option Row :=
  s.find? (fun r => r.id == post_id)

/-- An `UPDATE scheduled_posts SET ... WHERE id = ?`: apply `f` to every row
whose id matches. -/
def updateRows (s : Store) (post_id : Nat) (f : Row → Row) : Store :=
  s.map (fun r => if r.id == post_id then f r else r)

/-- Method `ScheduledPostsDB.add`: insert a fresh pending row and return `get` of it.
The fresh uuid and the sampled creation clock are explicit arguments. -/
def add (s : Store) (post_id : Nat) (commentary scheduled_time : String)
    (url : Option String) (visibility : String) (created_at : String) :
    Store × Option Row :=
  let row : Row :=
    { id := post_id, commentary := commentary, url := url,
      visibility := visibility, scheduled_time := scheduled_time,
      status := .pending, created_at := created_at, published_at := none,
      post_urn := none, error_message := none, retry_count := 0 }
  let s2 := s ++ [row]
  (s2, get s2 post_id)

/-- The `SET` clause of `mark_published`: status = published, published_at = now,
post_urn = the given urn. -/
def pubUpdate (now post_urn : String) (r : Row) : Row :=
  { r with status := .published, published_at := some now, post_urn := some post_urn }

/-- Method `ScheduledPostsDB.mark_published`: unconditional `UPDATE ... WHERE id = ?`,
then return `get` of the id. -/
def mark_published (s : Store) (post_id : Nat) (post_urn : String) (now : String) :
    Store × Option Row :=
  let s2 := updateRows s post_id (pubUpdate now post_urn)
  (s2, get s2 post_id)

/-- The `SET` clause of `mark_failed`: status = failed, error_message = the given
message, retry_count = retry_count + 1. -/
def failUpdate (error_message : String) (r : Row) : Row :=
  { r with
      status := .failed, error_message := some error_message,
      retry_count := r.retry_count + 1 }

/-- Method `ScheduledPostsDB.mark_failed`: unconditional `UPDATE ... WHERE id = ?`,
then return `get` of the id. -/
def mark_failed (s : Store) (post_id : Nat) (error_message : String) :
    Store × Option Row :=
  let s2 := updateRows s post_id (failUpdate error_message)
  (s2, get s2 post_id)

/-- Method `ScheduledPostsDB.cancel`: read the row; if it is absent or not pending,
return `None` without touching the table; otherwise set status = cancelled and
return `get` of the id. -/
def cancel (s : Store) (post_id : Nat) : Store × Option Row :=
  match get s post_id with
  | none => (s, none)
  | some row =>
    if row.status ≠ Status.pending then (s, none)
    else
      let s2 := updateRows s post_id (fun r => { r with status := .cancelled })
      (s2, get s2 post_id)

/-- SQLite `LIMIT ?` applied to an ordered result: a negative limit means
"no limit", and `LIMIT 0` means an empty result. -/
def sqlLimit (limit : Int) (l : List Row) : List Row :=
  if limit < 0 then l else l.take limit.toNat

/-- Method `ScheduledPostsDB.list`: optional status filter,
`ORDER BY scheduled_time ASC`, then `LIMIT ?`. -/
def listPosts (s : Store) (status : Option Status) (limit : Int) : List Row :=
  sqlLimit limit
    (match status with
     | some st => sortByTime (s.filter (fun r => decide (r.status = st)))
     | none => sortByTime s)

/-- Method `ScheduledPostsDB.get_due`: `status = 'pending' AND scheduled_time <= now`,
ordered ascending by `scheduled_time`.  The clock sampled inside the Python
method is the explicit argument `now`. -/
def get_due (s : Store) (now : String) : List Row :=
  sortByTime (s.filter (fun r => decide (r.status = Status.pending) &&
    strLe r.scheduled_time now))

/-- The argument record of one call to the external publishing client
(`client.create_post` in `run_scheduler`). -/
structure PublishCall where
  commentary : String
  visibility : String
  url : Option String
deriving DecidableEq, Repr

/-- The arguments `run_scheduler` actually passes for a due row: its commentary
and visibility; the `url` keyword is never passed, so it stays at the client's
default `None` even when the row has a url attached. -/
def publishArgs (r : Row) : PublishCall :=
  { commentary := r.commentary, visibility := r.visibility, url := none }

/-- The store update `run_scheduler` performs for one due row, as a function of
the publish outcome: `mark_published` with the returned urn on success,
`mark_failed` with the string representation of the error on failure. -/
def rowOutcome (publish : PublishCall → Except String String) (now : String)
    (r : Row) : Row :=
  match publish (publishArgs r) with
  | .ok urn => pubUpdate now urn r
  | .error e => failUpdate e r

/-- The `for post in due` loop of `run_scheduler`: try to publish each row in
order; on success `mark_published`, on any exception `mark_failed`, and in both
cases continue with the remaining rows.  Also records the calls made to the
publishing client. -/
def dispatchLoop (publish : PublishCall → Except String String) (now : String) :
    Store → List Row → Store × List PublishCall
  | s, [] => (s, [])
  | s, r :: rest =>
    match publish (publishArgs r) with
    | .ok urn =>
      let s2 := (mark_published s r.id urn now).1
      let rec2 := dispatchLoop publish now s2 rest
      (rec2.1, publishArgs r :: rec2.2)
    | .error e =>
      let s2 := (mark_failed s r.id e).1
      let rec2 := dispatchLoop publish now s2 rest
      (rec2.1, publishArgs r :: rec2.2)

/-- Function `run_scheduler`: fetch the due rows and run the dispatch loop over them
(with no due rows the loop body never runs and the store is unchanged). -/
def run_scheduler (publish : PublishCall → Except String String) (s : Store)
    (now : String) : Store × List PublishCall :=
  dispatchLoop publish now s (get_due s now)

/-- Result of the `schedule_post` tool: the scheduled row, or a structured
error response (`_error_response` / the inline error JSON), never an unhandled
crash. -/
inductive ScheduleResult
  | ok (post : Row)
  | error (message : String)
deriving DecidableEq, Repr

/-- Whether a `ScheduleResult` is a success. -/
def ScheduleResult.isOk : ScheduleResult → Bool
  | .ok _ => true
  | .error _ => false

/-- Tool `schedule_post` in `tools/scheduler.py`: parse `scheduled_time`
(`datetime.fromisoformat`, modelled by the oracle `parseTime`; a parse failure
raises and is caught by the surrounding `except`, producing a structured error
response); reject a time not strictly in the future; otherwise `db.add`.
There is no check on `commentary`. -/
def schedule_post (parseTime : String → Option Int) (nowDt : Int) (s : Store)
    (commentary scheduled_time : String) (url : Option String)
    (visibility : String) (fresh_id : Nat) (created_at : String) :
    Store × ScheduleResult :=
  match parseTime scheduled_time with
  | none => (s, .error "Invalid isoformat string")
  | some dt =>
    if dt ≤ nowDt then (s, .error "scheduled_time must be in the future")
    else
      let res := add s fresh_id commentary scheduled_time url visibility created_at
      match res.2 with
      | some post => (res.1, .ok post)
      | none => (res.1, .error "not found")

/-- One invocation of a mutating store method, for stating invariants over
every sequence of store operations. -/
inductive Op
  | add (post_id : Nat) (commentary scheduled_time : String) (url : Option String)
      (visibility created_at : String)
  | mark_published (post_id : Nat) (post_urn now : String)
  | mark_failed (post_id : Nat) (error_message : String)
  | cancel (post_id : Nat)

/-- Apply one store operation to the store (dropping the returned row). -/
def applyOp (s : Store) : Op → Store
  | .add post_id c t u v ca => (add s post_id c t u v ca).1
  | .mark_published post_id urn now => (mark_published s post_id urn now).1
  | .mark_failed post_id msg => (mark_failed s post_id msg).1
  | .cancel post_id => (cancel s post_id).1

/-- Apply a sequence of store operations in order. -/
def applyOps (s : Store) (ops : List Op) : Store := ops.foldl applyOp s

/-- Whether an operation is an `add` that (re)uses the given id — the only way
a fresh row with that id can appear.  `uuid.uuid4()` ids make this false. -/
def Op.addsWithId : Op → Nat → Bool
  | .add post_id _ _ _ _ _, q => post_id == q
  | _, _ => false

/-- Data-model invariant of §3 of the spec, published direction: a published
row carries a `published_at` and a `post_urn`. -/
def PubInv (s : Store) : Prop :=
  ∀ r ∈ s, r.status = Status.published → r.published_at.isSome ∧ r.post_urn.isSome

/-- No row with the given id is pending. -/
def NotPendingId (post_id : Nat) (s : Store) : Prop :=
  ∀ r ∈ s, r.id = post_id → r.status ≠ Status.pending

/-- Row builder for concrete test stores. -/
def mkRow (post_id : Nat) (scheduled_time : String) (st : Status) : Row :=
  { id := post_id, commentary := "text", url := none, visibility := "PUBLIC",
    scheduled_time := scheduled_time, status := st,
    created_at := "2029-06-01T00:00:00+00:00", published_at := none,
    post_urn := none, error_message := none, retry_count := 0 }

/-- Sample clock value for concrete runs. -/
def demoNow : String := "2029-06-01T00:00:00+00:00"

/-- Sample store for instantiating theorems on concrete data. -/
def demoStore : Store :=
  [mkRow 1 "2027-01-01T00:00:00+00:00" Status.pending,
   mkRow 2 "2028-01-01T00:00:00+00:00" Status.published,
   mkRow 3 "2026-01-01T00:00:00+00:00" Status.failed]

/-- Sample row for membership questions about `get_due`. -/
def demoRow : Row := mkRow 1 "2027-01-01T00:00:00+00:00" Status.pending

/-- Store holding one already-published row. -/
def C1_store : Store := [mkRow 1 "2027-01-01T00:00:00+00:00" Status.published]

/-- Store produced by add, then mark_published, then mark_failed on one id. -/
def C2_state : Store :=
  (mark_failed (mark_published (add [] 1 "hello world" "2030-01-01T00:00:00+00:00"
    none "PUBLIC" "2029-06-01T00:00:00+00:00").1 1 "urn-li-share-1"
    "2030-01-01T00:00:05+00:00").1 1 "rate limited").1

/-- Timestamp parser oracle accepting exactly one string. -/
def C4_parse : String → Option Int :=
  fun t => if t = "2030-01-01T00:00:00+00:00" then some 100 else none

/-- A pending row that has an article url attached. -/
def C5_row : Row :=
  { mkRow 1 "2027-01-01T00:00:00+00:00" Status.pending with
    url := some "https://example.com/article" }

/-- A publisher that always succeeds. -/
def C5_publish : PublishCall → Except String String := fun _ => .ok "urn-li-share-2"

/-- Store with two pending rows. -/
def C6_store : Store :=
  [mkRow 1 "2027-01-01T00:00:00+00:00" Status.pending,
   mkRow 2 "2028-01-01T00:00:00+00:00" Status.pending]

/-- First due row of the two-row dispatch example. -/
def C7_rowA : Row :=
  { mkRow 1 "2026-01-01T00:00:00+00:00" Status.pending with
    commentary := "first post" }

/-- Second due row of the two-row dispatch example. -/
def C7_rowB : Row :=
  { mkRow 2 "2027-01-01T00:00:00+00:00" Status.pending with
    commentary := "second post" }

/-- Store with two due rows, the first of which will fail to publish. -/
def C7_store : Store := [C7_rowA, C7_rowB]

/-- A publisher that raises on the first row and succeeds on the second. -/
def C7_publish : PublishCall → Except String String :=
  fun c => if c.commentary = "first post" then .error "rate limited"
    else .ok "urn-li-share-3"

/-- Store holding a single pending row. -/
def C8_store : Store := [mkRow 1 "2027-01-01T00:00:00+00:00" Status.pending]

/-- Store with three rows of three different statuses. -/
def C9_store : Store :=
  [mkRow 1 "2027-01-01T00:00:00+00:00" Status.pending,
   mkRow 2 "2028-01-01T00:00:00+00:00" Status.published,
   mkRow 3 "2026-01-01T00:00:00+00:00" Status.failed]

/-- Store holding one published row. -/
def C10_store : Store := [mkRow 1 "2027-01-01T00:00:00+00:00" Status.published]

end LinkedinMcp

namespace LinkedinMcp

/-! ### Order-theoretic facts about the SQLite TEXT comparison -/

theorem textLe_total (a b : List Char) : textLe a b = true ∨ textLe b a = true := by
  induction a generalizing b with
  | nil => left; rfl
  | cons c cs ih =>
    cases b with
    | nil => right; rfl
    | cons d ds =>
      rcases lt_trichotomy c d with h | h | h
      · left; simp [textLe, h]
      · subst h
        rcases ih ds with h2 | h2
        · left; simp [textLe, h2]
        · right; simp [textLe, h2]
      · right; simp [textLe, h, not_lt_of_lt h]

theorem textLe_trans (a b c : List Char) (hab : textLe a b = true)
    (hbc : textLe b c = true) : textLe a c = true := by
  induction a generalizing b c with
  | nil => rfl
  | cons x xs ih =>
    cases b with
    | nil => simp [textLe] at hab
    | cons y ys =>
      cases c with
      | nil => simp [textLe] at hbc
      | cons z zs =>
        simp only [textLe] at hab hbc ⊢
        split at hab
        · rename_i hxy
          split at hbc
          · rename_i hyz
            simp [lt_trans hxy hyz]
          · split at hbc
            · exact absurd hbc (by simp)
            · rename_i h1 h2
              have hyz : y = z := le_antisymm (not_lt.mp h2) (not_lt.mp h1)
              subst hyz
              simp [hxy]
        · split at hab
          · exact absurd hab (by simp)
          · rename_i h1 h2
            have hxy : x = y := le_antisymm (not_lt.mp h2) (not_lt.mp h1)
            subst hxy
            split at hbc
            · rename_i hyz; simp [hyz]
            · split at hbc
              · exact absurd hbc (by simp)
              · rename_i h3 h4
                have hyz : x = z := le_antisymm (not_lt.mp h4) (not_lt.mp h3)
                subst hyz
                rw [if_neg (lt_irrefl x), if_neg (lt_irrefl x)]
                exact ih _ _ hab hbc

theorem timeLe_total (a b : Row) : timeLe a b ∨ timeLe b a :=
  textLe_total a.scheduled_time.data b.scheduled_time.data

theorem timeLe_trans_thm (a b c : Row) (hab : timeLe a b) (hbc : timeLe b c) :
    timeLe a c :=
  textLe_trans a.scheduled_time.data b.scheduled_time.data c.scheduled_time.data hab hbc

/-! ### Reads after writes -/

theorem get_updateRows (s : Store) (post_id qid : Nat) (f : Row → Row)
    (hf : ∀ r, (f r).id = r.id) :
    get (updateRows s post_id f) qid
      = (get s qid).map (fun r => if r.id == post_id then f r else r) := by
  unfold get updateRows
  rw [List.find?_map]
  have hpred : ((fun r => r.id == qid) ∘
      fun r => if (r.id == post_id) = true then f r else r) = fun r => r.id == qid := by
    funext r
    by_cases h : (r.id == post_id) = true
    · simp only [Function.comp_apply, if_pos h, hf]
    · simp only [Function.comp_apply, if_neg h]
  rw [hpred]

theorem get_some_id (s : Store) (qid : Nat) (r : Row) (h : get s qid = some r) :
    r.id = qid := by
  have hp := List.find?_some (by simpa [get] using h)
  simpa using hp

theorem get_updateRows_self (s : Store) (post_id : Nat) (f : Row → Row) (r : Row)
    (hf : ∀ x, (f x).id = x.id) (h : get s post_id = some r) :
    get (updateRows s post_id f) post_id = some (f r) := by
  have hr : (r.id == post_id) = true := by
    simpa using get_some_id s post_id r h
  rw [get_updateRows s post_id post_id f hf, h]
  simp only [Option.map_some']
  rw [if_pos hr]

theorem get_updateRows_other (s : Store) (post_id qid : Nat) (f : Row → Row)
    (hf : ∀ x, (f x).id = x.id) (h : qid ≠ post_id) :
    get (updateRows s post_id f) qid = get s qid := by
  rw [get_updateRows s post_id qid f hf]
  cases hq : get s qid with
  | none => rfl
  | some r =>
    have h1 : r.id = qid := get_some_id s qid r hq
    have h2 : ¬ ((r.id == post_id) = true) := by
      simp only [h1, beq_iff_eq]
      exact h
    simp only [Option.map_some']
    rw [if_neg h2]

theorem get_append_left (s : Store) (x : Row) (qid : Nat) (r : Row)
    (h : get s qid = some r) : get (s ++ [x]) qid = some r := by
  unfold get at h ⊢
  rw [List.find?_append, h]
  rfl

/-! ### The due-item query -/

theorem mem_get_due (s : Store) (now : String) (r : Row) :
    r ∈ get_due s now
      ↔ r ∈ s ∧ r.status = Status.pending ∧ strLe r.scheduled_time now = true := by
  unfold get_due sortByTime
  rw [List.mem_insertionSort, List.mem_filter]
  simp [and_assoc]

theorem sorted_get_due (s : Store) (now : String) :
    List.Sorted timeLe (get_due s now) := by
  unfold get_due sortByTime
  exact @List.sorted_insertionSort Row timeLe timeLeDec
    ⟨fun a b => timeLe_total a b⟩ ⟨fun a b c => timeLe_trans_thm a b c⟩ _

theorem get_of_nodup (s : Store) (r : Row) (hs : (s.map Row.id).Nodup)
    (hr : r ∈ s) : get s r.id = some r := by
  induction s with
  | nil => cases hr
  | cons x xs ih =>
    rcases List.mem_cons.mp hr with h | h
    · subst h
      unfold get
      rw [List.find?_cons_of_pos]
      simp
    · have hs2 : (x.id :: xs.map Row.id).Nodup := by simpa using hs
      have hcons := List.nodup_cons.mp hs2
      have hx : (x.id == r.id) = false := by
        simp only [beq_eq_false_iff_ne, ne_eq]
        intro hc
        exact hcons.1 (hc ▸ List.mem_map_of_mem Row.id h)
      have ihx := ih hcons.2 h
      unfold get at ihx ⊢
      rw [List.find?_cons_of_neg]
      · exact ihx
      · simp [hx]

theorem nodup_get_due (s : Store) (now : String) (hs : (s.map Row.id).Nodup) :
    ((get_due s now).map Row.id).Nodup := by
  unfold get_due sortByTime
  have hperm := List.perm_insertionSort timeLe
    (s.filter (fun r => decide (r.status = Status.pending) && strLe r.scheduled_time now))
  have hsub : ((s.filter (fun r => decide (r.status = Status.pending) &&
      strLe r.scheduled_time now)).map Row.id).Nodup :=
    ((List.filter_sublist s).map Row.id).nodup hs
  exact ((hperm.map Row.id).symm).nodup hsub

end LinkedinMcp

namespace LinkedinMcp

/-! ### Dispatch loop lemmas -/

theorem dispatchLoop_store_other (publish : PublishCall → Except String String)
    (now : String) (l : List Row) (s : Store) (qid : Nat)
    (hq : qid ∉ l.map Row.id) :
    get (dispatchLoop publish now s l).1 qid = get s qid := by
  induction l generalizing s with
  | nil => rfl
  | cons r rest ih =>
    have hne : qid ≠ r.id := by
      intro hc
      exact hq (by simp [hc])
    have hrest : qid ∉ rest.map Row.id := by
      intro hc
      exact hq (by simp [hc])
    simp only [dispatchLoop]
    cases hpub : publish (publishArgs r) with
    | ok urn =>
      simp only
      rw [ih ((mark_published s r.id urn now).1) hrest]
      exact get_updateRows_other s r.id qid _ (fun x => rfl) hne
    | error e =>
      simp only
      rw [ih ((mark_failed s r.id e).1) hrest]
      exact get_updateRows_other s r.id qid _ (fun x => rfl) hne

theorem dispatchLoop_get (publish : PublishCall → Except String String)
    (now : String) (l : List Row) (s : Store)
    (hnodup : (l.map Row.id).Nodup) (hget : ∀ r ∈ l, get s r.id = some r) :
    ∀ r ∈ l, get (dispatchLoop publish now s l).1 r.id
      = some (rowOutcome publish now r) := by
  induction l generalizing s with
  | nil =>
    intro r hr
    cases hr
  | cons x rest ih =>
    have hs2 : (x.id :: rest.map Row.id).Nodup := by simpa using hnodup
    have hcons := List.nodup_cons.mp hs2
    intro r hr
    simp only [dispatchLoop]
    cases hpub : publish (publishArgs x) with
    | ok urn =>
      simp only
      have hstep : get (mark_published s x.id urn now).1 x.id
          = some (pubUpdate now urn x) :=
        get_updateRows_self s x.id _ x (fun y => rfl) (hget x (by simp))
      have hother : ∀ r2 ∈ rest, get (mark_published s x.id urn now).1 r2.id
          = some r2 := by
        intro r2 hr2
        have hne : r2.id ≠ x.id := by
          intro hc
          exact hcons.1 (hc ▸ List.mem_map_of_mem Row.id hr2)
        have h4 : get (mark_published s x.id urn now).1 r2.id = get s r2.id :=
          get_updateRows_other s x.id r2.id (pubUpdate now urn) (fun y => rfl) hne
        rw [h4]
        exact hget r2 (by simp [hr2])
      rcases List.mem_cons.mp hr with h | h
      · subst h
        rw [dispatchLoop_store_other publish now rest _ r.id hcons.1, hstep]
        simp [rowOutcome, hpub]
      · exact ih ((mark_published s x.id urn now).1) hcons.2 hother r h
    | error e =>
      simp only
      have hstep : get (mark_failed s x.id e).1 x.id = some (failUpdate e x) :=
        get_updateRows_self s x.id _ x (fun y => rfl) (hget x (by simp))
      have hother : ∀ r2 ∈ rest, get (mark_failed s x.id e).1 r2.id
          = some r2 := by
        intro r2 hr2
        have hne : r2.id ≠ x.id := by
          intro hc
          exact hcons.1 (hc ▸ List.mem_map_of_mem Row.id hr2)
        have h4 : get (mark_failed s x.id e).1 r2.id = get s r2.id :=
          get_updateRows_other s x.id r2.id (failUpdate e) (fun y => rfl) hne
        rw [h4]
        exact hget r2 (by simp [hr2])
      rcases List.mem_cons.mp hr with h | h
      · subst h
        rw [dispatchLoop_store_other publish now rest _ r.id hcons.1, hstep]
        simp [rowOutcome, hpub]
      · exact ih ((mark_failed s x.id e).1) hcons.2 hother r h

theorem dispatchLoop_calls (publish : PublishCall → Except String String)
    (now : String) (l : List Row) (s : Store) :
    (dispatchLoop publish now s l).2 = l.map publishArgs := by
  induction l generalizing s with
  | nil => rfl
  | cons r rest ih =>
    simp only [dispatchLoop]
    cases hpub : publish (publishArgs r) with
    | ok urn => simp [ih]
    | error e => simp [ih]

/-! ### Invariants preserved by every store operation -/

theorem cancel_fst_cases (s : Store) (post_id : Nat) :
    (cancel s post_id).1 = s ∨
      (cancel s post_id).1
        = updateRows s post_id (fun r => { r with status := Status.cancelled }) := by
  unfold cancel
  split
  · left
    rfl
  · split
    · left
      rfl
    · right
      rfl

theorem pubInv_applyOp (s : Store) (op : Op) (h : PubInv s) :
    PubInv (applyOp s op) := by
  cases op with
  | add post_id c t u v ca =>
    intro r hr hpub
    simp only [applyOp, add, List.mem_append, List.mem_singleton] at hr
    rcases hr with hr | hr
    · exact h r hr hpub
    · subst hr
      cases hpub
  | mark_published post_id urn now =>
    intro r hr hpub
    simp only [applyOp, mark_published, updateRows, List.mem_map] at hr
    rcases hr with ⟨x, hx, rfl⟩
    by_cases hid : (x.id == post_id) = true
    · simp only [if_pos hid, pubUpdate]
      exact ⟨rfl, rfl⟩
    · rw [if_neg hid] at hpub ⊢
      exact h x hx hpub
  | mark_failed post_id msg =>
    intro r hr hpub
    simp only [applyOp, mark_failed, updateRows, List.mem_map] at hr
    rcases hr with ⟨x, hx, rfl⟩
    by_cases hid : (x.id == post_id) = true
    · rw [if_pos hid] at hpub
      cases hpub
    · rw [if_neg hid] at hpub ⊢
      exact h x hx hpub
  | cancel post_id =>
    intro r hr hpub
    simp only [applyOp] at hr
    rcases cancel_fst_cases s post_id with hc | hc
    · rw [hc] at hr
      exact h r hr hpub
    · rw [hc] at hr
      simp only [updateRows, List.mem_map] at hr
      rcases hr with ⟨x, hx, rfl⟩
      by_cases hid : (x.id == post_id) = true
      · rw [if_pos hid] at hpub
        cases hpub
      · rw [if_neg hid] at hpub ⊢
        exact h x hx hpub

theorem pubInv_applyOps (s : Store) (ops : List Op) (h : PubInv s) :
    PubInv (applyOps s ops) := by
  induction ops generalizing s with
  | nil => exact h
  | cons op rest ih => exact ih (applyOp s op) (pubInv_applyOp s op h)

theorem notPending_applyOp (post_id : Nat) (s : Store) (op : Op)
    (hop : op.addsWithId post_id = false) (h : NotPendingId post_id s) :
    NotPendingId post_id (applyOp s op) := by
  cases op with
  | add pid2 c t u v ca =>
    intro r hr hid
    simp only [applyOp, add, List.mem_append, List.mem_singleton] at hr
    rcases hr with hr | hr
    · exact h r hr hid
    · subst hr
      simp only [Op.addsWithId, beq_eq_false_iff_ne, ne_eq] at hop
      exact absurd hid hop
  | mark_published pid2 urn now =>
    intro r hr hid
    simp only [applyOp, mark_published, updateRows, List.mem_map] at hr
    rcases hr with ⟨x, hx, rfl⟩
    by_cases hid2 : (x.id == pid2) = true
    · rw [if_pos hid2]
      intro hc
      cases hc
    · rw [if_neg hid2] at hid ⊢
      exact h x hx hid
  | mark_failed pid2 msg =>
    intro r hr hid
    simp only [applyOp, mark_failed, updateRows, List.mem_map] at hr
    rcases hr with ⟨x, hx, rfl⟩
    by_cases hid2 : (x.id == pid2) = true
    · rw [if_pos hid2]
      intro hc
      cases hc
    · rw [if_neg hid2] at hid ⊢
      exact h x hx hid
  | cancel pid2 =>
    intro r hr hid
    simp only [applyOp] at hr
    rcases cancel_fst_cases s pid2 with hc | hc
    · rw [hc] at hr
      exact h r hr hid
    · rw [hc] at hr
      simp only [updateRows, List.mem_map] at hr
      rcases hr with ⟨x, hx, rfl⟩
      by_cases hid2 : (x.id == pid2) = true
      · rw [if_pos hid2]
        intro hc2
        cases hc2
      · rw [if_neg hid2] at hid ⊢
        exact h x hx hid

theorem notPending_applyOps (post_id : Nat) (s : Store) (ops : List Op)
    (hops : ∀ op ∈ ops, op.addsWithId post_id = false)
    (h : NotPendingId post_id s) : NotPendingId post_id (applyOps s ops) := by
  induction ops generalizing s with
  | nil => exact h
  | cons op rest ih =>
    exact ih (applyOp s op) (fun o ho => hops o (by simp [ho]))
      (notPending_applyOp post_id s op (hops op (by simp)) h)

theorem notPending_mark_failed (s : Store) (post_id : Nat) (msg : String) :
    NotPendingId post_id (mark_failed s post_id msg).1 := by
  intro r hr hid
  simp only [mark_failed, updateRows, List.mem_map] at hr
  rcases hr with ⟨x, hx, rfl⟩
  by_cases hid2 : (x.id == post_id) = true
  · rw [if_pos hid2]
    intro hc
    cases hc
  · rw [if_neg hid2] at hid
    have : x.id = post_id := hid
    simp [this] at hid2

end LinkedinMcp

namespace LinkedinMcp

/-! ### Cancel behaviour -/

theorem cancel_of_missing (s : Store) (post_id : Nat) (h : get s post_id = none) :
    cancel s post_id = (s, none) := by
  unfold cancel
  rw [h]

theorem cancel_of_notPending (s : Store) (post_id : Nat) (r : Row)
    (h : get s post_id = some r) (hst : r.status ≠ Status.pending) :
    cancel s post_id = (s, none) := by
  unfold cancel
  rw [h]
  split
  · rfl
  · rename_i row heq
    injection heq with heq2
    subst heq2
    rw [if_pos hst]

theorem cancel_success (s : Store) (post_id : Nat) (r : Row)
    (h : get s post_id = some r) (hst : r.status = Status.pending) :
    cancel s post_id
      = (updateRows s post_id (fun x => { x with status := Status.cancelled }),
          some { r with status := Status.cancelled }) := by
  unfold cancel
  rw [h]
  split
  · rename_i heq
    cases heq
  · rename_i row heq
    injection heq with heq2
    subst heq2
    rw [if_neg (not_not_intro hst)]
    have h2 := get_updateRows_self s post_id
      (fun x => { x with status := Status.cancelled }) r (fun x => rfl) h
    show (updateRows s post_id fun x => { x with status := Status.cancelled },
      get (updateRows s post_id fun x => { x with status := Status.cancelled }) post_id) = _
    rw [h2]

end LinkedinMcp

namespace LinkedinMcp

/-! ### Claim C1 -/

/-- C1 counterexample: `mark_failed` applied to an item whose status is
`published` (not pending) is not refused — it changes the status to `failed`. -/
theorem C1_counterexample :
    (get C1_store 1).map Row.status = some Status.published
    ∧ (get (mark_failed C1_store 1 "rate limited").1 1).map Row.status
        = some Status.failed := by
  decide

/-- C1 (amended): for an item whose status is not pending, `cancel` is refused
and leaves the store unchanged, but `mark_published` and `mark_failed` are
applied unconditionally: they set the status to published resp. failed
regardless of the current status. -/
theorem C1_amended_transitions (s : Store) (post_id : Nat) (r : Row)
    (msg urn now : String) (hget : get s post_id = some r)
    (hnp : r.status ≠ Status.pending) :
    cancel s post_id = (s, none)
    ∧ (get (mark_failed s post_id msg).1 post_id).map Row.status
        = some Status.failed
    ∧ (get (mark_published s post_id urn now).1 post_id).map Row.status
        = some Status.published := by
  refine ⟨cancel_of_notPending s post_id r hget hnp, ?_, ?_⟩
  · have h2 : get (mark_failed s post_id msg).1 post_id
        = some (failUpdate msg r) :=
      get_updateRows_self s post_id (failUpdate msg) r (fun x => rfl) hget
    rw [h2]
    rfl
  · have h2 : get (mark_published s post_id urn now).1 post_id
        = some (pubUpdate now urn r) :=
      get_updateRows_self s post_id (pubUpdate now urn) r (fun x => rfl) hget
    rw [h2]
    rfl

/-- C1 witness: the amended statement at a concrete published row. -/
theorem C1_witness :
    get C1_store 1 = some (mkRow 1 "2027-01-01T00:00:00+00:00" Status.published)
    ∧ (cancel C1_store 1 = (C1_store, none)
      ∧ (get (mark_failed C1_store 1 "boom").1 1).map Row.status
          = some Status.failed
      ∧ (get (mark_published C1_store 1 "urn-9" demoNow).1 1).map Row.status
          = some Status.published) :=
  ⟨by decide,
   C1_amended_transitions C1_store 1
     (mkRow 1 "2027-01-01T00:00:00+00:00" Status.published)
     "boom" "urn-9" demoNow (by decide) (by decide)⟩

/-! ### Claim C2 -/

/-- C2 counterexample: after add, mark_published, mark_failed on the same id,
the row's status is `failed` while `published_at` and `post_urn` are still
non-null, so non-null published fields do not imply status = published. -/
theorem C2_counterexample :
    (get C2_state 1).map Row.status = some Status.failed
    ∧ (get C2_state 1).map (fun r => r.published_at.isSome) = some true
    ∧ (get C2_state 1).map (fun r => r.post_urn.isSome) = some true := by
  decide

/-- C2 (amended): in every store reachable from the empty store by store
operations, a row with status = published has non-null `published_at` and
`post_urn` (the forward direction of the claimed equivalence; the converse is
refuted by the counterexample, since `mark_failed` on a published row keeps
both fields non-null). -/
theorem C2_amended_published_fields (ops : List Op) :
    PubInv (applyOps [] ops) :=
  pubInv_applyOps [] ops (fun r hr => absurd hr (List.not_mem_nil r))

/-- C2 witness: the amended invariant after a concrete add and publish. -/
theorem C2_witness :
    PubInv (applyOps [] [Op.add 1 "hello" "2030-01-01T00:00:00+00:00" none
      "PUBLIC" "2029-06-01T00:00:00+00:00",
      Op.mark_published 1 "urn-li-share-1" "2030-01-01T00:00:05+00:00"]) :=
  C2_amended_published_fields [Op.add 1 "hello" "2030-01-01T00:00:00+00:00" none
    "PUBLIC" "2029-06-01T00:00:00+00:00",
    Op.mark_published 1 "urn-li-share-1" "2030-01-01T00:00:05+00:00"]

/-! ### Claim C3 -/

/-- C3 (confirmed): `get_due s now` contains exactly the rows of `s` with
status = pending and scheduled_time ≤ now (SQLite TEXT comparison), it is
sorted ascending by scheduled_time, and every returned row has status
pending — so no published, cancelled or failed row is ever returned,
whatever its scheduled_time. -/
theorem C3_get_due_spec (s : Store) (now : String) :
    (∀ r, r ∈ get_due s now
      ↔ r ∈ s ∧ r.status = Status.pending ∧ strLe r.scheduled_time now = true)
    ∧ List.Sorted timeLe (get_due s now)
    ∧ (∀ r ∈ get_due s now, r.status = Status.pending) :=
  ⟨fun r => mem_get_due s now r, sorted_get_due s now,
   fun r hr => ((mem_get_due s now r).mp hr).2.1⟩

/-- C3 witness: the membership characterisation at a concrete store and row. -/
theorem C3_witness :
    demoRow ∈ get_due demoStore demoNow
      ↔ demoRow ∈ demoStore ∧ demoRow.status = Status.pending
        ∧ strLe demoRow.scheduled_time demoNow = true :=
  (C3_get_due_spec demoStore demoNow).1 demoRow

/-! ### Claim C4 -/

/-- C4 counterexample: a create request with empty commentary (and a valid
future scheduled_time) is not refused: it succeeds and a row is written. -/
theorem C4_counterexample :
    (schedule_post C4_parse 0 [] "" "2030-01-01T00:00:00+00:00" none "PUBLIC" 1
      "2029-06-01T00:00:00+00:00").2.isOk = true
    ∧ (schedule_post C4_parse 0 [] "" "2030-01-01T00:00:00+00:00" none "PUBLIC" 1
      "2029-06-01T00:00:00+00:00").1.length = 1 := by
  decide

/-- C4 (amended): create fails with a structured error response and writes no
row when scheduled_time is unparseable or when it is not strictly in the
future; commentary is not validated at all (an empty commentary is accepted
and a row is written, as the counterexample shows). -/
theorem C4_amended_validation (parseTime : String → Option Int) (nowDt : Int)
    (s : Store) (c t : String) (u : Option String) (v : String) (fid : Nat)
    (ca : String) :
    (parseTime t = none →
      schedule_post parseTime nowDt s c t u v fid ca
        = (s, .error "Invalid isoformat string"))
    ∧ (∀ dt, parseTime t = some dt → dt ≤ nowDt →
      schedule_post parseTime nowDt s c t u v fid ca
        = (s, .error "scheduled_time must be in the future")) := by
  constructor
  · intro h
    unfold schedule_post
    rw [h]
  · intro dt h hle
    unfold schedule_post
    rw [h]
    exact if_pos hle

/-- C4 witness: both validation failures at concrete inputs, with the store
left empty. -/
theorem C4_witness :
    schedule_post C4_parse 0 [] "hi" "not a timestamp" none "PUBLIC" 1
      "2029-06-01T00:00:00+00:00" = ([], .error "Invalid isoformat string")
    ∧ schedule_post C4_parse 200 [] "hi" "2030-01-01T00:00:00+00:00" none
      "PUBLIC" 1 "2029-06-01T00:00:00+00:00"
        = ([], .error "scheduled_time must be in the future") :=
  ⟨(C4_amended_validation C4_parse 0 [] "hi" "not a timestamp" none "PUBLIC" 1
      "2029-06-01T00:00:00+00:00").1 (by decide),
   (C4_amended_validation C4_parse 200 [] "hi" "2030-01-01T00:00:00+00:00" none
      "PUBLIC" 1 "2029-06-01T00:00:00+00:00").2 100 (by decide) (by decide)⟩

/-! ### Claim C5 -/

/-- C5 counterexample: a due item with a url attached is dispatched, but the
publish call records no url — the loop passes only commentary and visibility
(the `url` keyword is never forwarded). -/
theorem C5_counterexample :
    C5_row.url = some "https://example.com/article"
    ∧ (run_scheduler C5_publish [C5_row] demoNow).2
        = [{ commentary := "text", visibility := "PUBLIC", url := none }] := by
  decide

/-- C5 (amended): for every due item, the dispatch loop invokes the publisher
with that item's commentary and visibility, and never with its url: the call
log is exactly the due list mapped through `publishArgs`, whose url field is
always `none`. -/
theorem C5_amended_publish_args (publish : PublishCall → Except String String)
    (s : Store) (now : String) :
    (run_scheduler publish s now).2 = (get_due s now).map publishArgs
    ∧ ∀ c ∈ (run_scheduler publish s now).2, c.url = none := by
  have h1 : (run_scheduler publish s now).2 = (get_due s now).map publishArgs :=
    dispatchLoop_calls publish now (get_due s now) s
  refine ⟨h1, ?_⟩
  intro c hc
  rw [h1] at hc
  rcases List.mem_map.mp hc with ⟨r, hr, rfl⟩
  rfl

/-- C5 witness: the call-log equation at a concrete store and publisher. -/
theorem C5_witness :
    (run_scheduler C5_publish [C5_row] demoNow).2
      = (get_due [C5_row] demoNow).map publishArgs :=
  (C5_amended_publish_args C5_publish [C5_row] demoNow).1

end LinkedinMcp

namespace LinkedinMcp

/-! ### Claim C6 -/

/-- C6 (confirmed): for an item present in the store, `mark_failed(id, msg)`
turns its row into `failUpdate msg r` — retry_count exactly one greater,
error_message = msg, scheduled_time unchanged, status = failed — and after any
further sequence of store operations none of which is an `add` reusing the id
(an external reset), no row with that id ever appears in a `get_due` result,
for any now. -/
theorem C6_mark_failed_spec (s : Store) (post_id : Nat) (msg : String) (r : Row)
    (hget : get s post_id = some r) :
    (get (mark_failed s post_id msg).1 post_id = some (failUpdate msg r)
      ∧ (failUpdate msg r).retry_count = r.retry_count + 1
      ∧ (failUpdate msg r).error_message = some msg
      ∧ (failUpdate msg r).scheduled_time = r.scheduled_time)
    ∧ ∀ ops, (∀ op ∈ ops, op.addsWithId post_id = false) →
        ∀ now r2, r2 ∈ get_due (applyOps (mark_failed s post_id msg).1 ops) now →
          r2.id ≠ post_id := by
  constructor
  · exact ⟨get_updateRows_self s post_id (failUpdate msg) r (fun x => rfl) hget,
      rfl, rfl, rfl⟩
  · intro ops hops now r2 hr2
    have hnp := notPending_applyOps post_id (mark_failed s post_id msg).1 ops
      hops (notPending_mark_failed s post_id msg)
    have hmem := (mem_get_due _ now r2).mp hr2
    intro hc
    exact hnp r2 hmem.1 hc hmem.2.1

/-- C6 witness: the post-failure row at a concrete store, hypotheses discharged
by evaluation. -/
theorem C6_witness :
    get C6_store 1 = some (mkRow 1 "2027-01-01T00:00:00+00:00" Status.pending)
    ∧ get (mark_failed C6_store 1 "rate limited").1 1
        = some (failUpdate "rate limited"
            (mkRow 1 "2027-01-01T00:00:00+00:00" Status.pending)) :=
  ⟨by decide,
   (C6_mark_failed_spec C6_store 1 "rate limited"
     (mkRow 1 "2027-01-01T00:00:00+00:00" Status.pending) (by decide)).1.1⟩

/-! ### Claim C7 -/

/-- C7 (confirmed): in one dispatch run over a store with distinct row ids,
every due item — including every item after a failing one — ends up with its
own outcome recorded in the final store: `failUpdate` (the mark_failed write
with the string representation of the publisher error) when its publish call
fails, `pubUpdate` when it succeeds.  A publisher failure is thus caught
per item and never aborts the batch. -/
theorem C7_dispatch_isolation (publish : PublishCall → Except String String)
    (s : Store) (now : String) (hnodup : (s.map Row.id).Nodup) :
    ∀ r ∈ get_due s now,
      get (run_scheduler publish s now).1 r.id
        = some (rowOutcome publish now r) := by
  have hdueNodup := nodup_get_due s now hnodup
  have hget : ∀ r ∈ get_due s now, get s r.id = some r := by
    intro r hr
    exact get_of_nodup s r hnodup ((mem_get_due s now r).mp hr).1
  exact dispatchLoop_get publish now (get_due s now) s hdueNodup hget

/-- C7 witness: a two-item run where the first publish raises and the second
succeeds; both outcomes are recorded. -/
theorem C7_witness :
    (C7_store.map Row.id).Nodup
    ∧ ∀ r ∈ get_due C7_store demoNow,
        get (run_scheduler C7_publish C7_store demoNow).1 r.id
          = some (rowOutcome C7_publish demoNow r) :=
  ⟨by decide, C7_dispatch_isolation C7_publish C7_store demoNow (by decide)⟩

/-! ### Claim C8 -/

/-- C8 (confirmed): `cancel(id)` returns a row (success) iff the item exists
and is pending; on success the returned row is cancelled, and cancelling the
same id again on the resulting store is refused. -/
theorem C8_cancel_spec (s : Store) (post_id : Nat) :
    ((cancel s post_id).2 ≠ none
      ↔ ∃ r, get s post_id = some r ∧ r.status = Status.pending)
    ∧ (∀ r2, (cancel s post_id).2 = some r2 →
        r2.status = Status.cancelled
        ∧ (cancel (cancel s post_id).1 post_id).2 = none) := by
  constructor
  · constructor
    · intro hne
      cases hg : get s post_id with
      | none =>
        rw [cancel_of_missing s post_id hg] at hne
        exact absurd rfl hne
      | some r =>
        by_cases hst : r.status = Status.pending
        · exact ⟨r, rfl, hst⟩
        · rw [cancel_of_notPending s post_id r hg hst] at hne
          exact absurd rfl hne
    · rintro ⟨r, hg, hst⟩
      rw [cancel_success s post_id r hg hst]
      simp
  · intro r2 h2
    cases hg : get s post_id with
    | none =>
      rw [cancel_of_missing s post_id hg] at h2
      cases h2
    | some r =>
      by_cases hst : r.status = Status.pending
      · rw [cancel_success s post_id r hg hst] at h2
        have h2b : some { r with status := Status.cancelled } = some r2 := h2
        injection h2b with h3
        constructor
        · rw [← h3]
        · have hc1 : (cancel s post_id).1
              = updateRows s post_id (fun x => { x with status := Status.cancelled }) := by
            rw [cancel_success s post_id r hg hst]
          have hget2 : get (updateRows s post_id
              (fun x => { x with status := Status.cancelled })) post_id
              = some { r with status := Status.cancelled } :=
            get_updateRows_self s post_id
              (fun x => { x with status := Status.cancelled }) r (fun x => rfl) hg
          have hagain := cancel_of_notPending (updateRows s post_id
              (fun x => { x with status := Status.cancelled })) post_id
              { r with status := Status.cancelled } hget2 (by intro hcc; cases hcc)
          rw [hc1, hagain]
      · rw [cancel_of_notPending s post_id r hg hst] at h2
        cases h2

/-- C8 witness: the success-iff-pending equivalence at a concrete store. -/
theorem C8_witness :
    (cancel C8_store 1).2 ≠ none
      ↔ ∃ r, get C8_store 1 = some r ∧ r.status = Status.pending :=
  (C8_cancel_spec C8_store 1).1

/-! ### Claim C9 -/

/-- C9 counterexample: with a negative limit the query is unlimited — on a
three-row store, `list(status=None, limit=-1)` returns every row of the
store, so a non-positive limit does not bound the result. -/
theorem C9_counterexample :
    C9_store.length = 3
    ∧ (listPosts C9_store none (-1)).length = 3
    ∧ ∀ r ∈ C9_store, r ∈ listPosts C9_store none (-1) := by
  refine ⟨rfl, by decide, by decide⟩

/-- C9 (amended): `list` returns at most `limit` items when limit ≥ 0 (and an
empty result for limit = 0); but for limit < 0 SQLite's LIMIT means "no
limit": every row matching the status filter is returned, so the result grows
with the store instead of being bounded. -/
theorem C9_amended_limit (s : Store) (status : Option Status) (limit : Int) :
    ((0 : Int) ≤ limit → (listPosts s status limit).length ≤ limit.toNat)
    ∧ (limit < 0 → ∀ r ∈ s, (∀ st, status = some st → r.status = st) →
        r ∈ listPosts s status limit) := by
  constructor
  · intro h
    unfold listPosts sqlLimit
    split
    · rename_i hlt
      exact absurd hlt (not_lt.mpr h)
    · rw [List.length_take]
      exact Nat.min_le_left _ _
  · intro hneg r hr hst
    unfold listPosts sqlLimit
    rw [if_pos hneg]
    cases status with
    | none =>
      show r ∈ sortByTime s
      unfold sortByTime
      rw [List.mem_insertionSort]
      exact hr
    | some st =>
      show r ∈ sortByTime (s.filter (fun r2 => decide (r2.status = st)))
      unfold sortByTime
      rw [List.mem_insertionSort, List.mem_filter]
      exact ⟨hr, by simp [hst st rfl]⟩

/-- C9 witness: the positive-limit bound and the negative-limit membership at
concrete inputs. -/
theorem C9_witness :
    (listPosts C9_store none 2).length ≤ (2 : Int).toNat
    ∧ demoRow ∈ listPosts C9_store none (-1) :=
  ⟨(C9_amended_limit C9_store none 2).1 (by decide),
   (C9_amended_limit C9_store none (-1)).2 (by decide) demoRow (by decide)
     (fun st hst => Option.noConfusion hst)⟩

/-! ### Claim C10 -/

/-- C10 (confirmed): whenever `cancel` refuses — the id is absent, or the row
is not pending — it returns exactly `(s, none)`: the store is unchanged (no
write at all) and the refusal value is the same `none` in both cases, so the
caller cannot tell not-found from not-pending through the result. -/
theorem C10_cancel_no_write (s : Store) (post_id : Nat) :
    (get s post_id = none → cancel s post_id = (s, none))
    ∧ ∀ r, get s post_id = some r → r.status ≠ Status.pending →
        cancel s post_id = (s, none) :=
  ⟨fun h => cancel_of_missing s post_id h,
   fun r h hst => cancel_of_notPending s post_id r h hst⟩

/-- C10 witness: both refusal cases at concrete inputs give the identical
result `(store, none)`. -/
theorem C10_witness :
    cancel C10_store 2 = (C10_store, none)
    ∧ cancel C10_store 1 = (C10_store, none) :=
  ⟨(C10_cancel_no_write C10_store 2).1 (by decide),
   (C10_cancel_no_write C10_store 1).2
     (mkRow 1 "2027-01-01T00:00:00+00:00" Status.published) (by decide)
     (by decide)⟩

end LinkedinMcp
